import Mathlib

/-!
Hangouts notifier of watchtower (`pkg/notifications/hangouts.go`).

A shallow embedding of the notifier hook and proofs about its batching
behaviour.

Modelling conventions.

* Go strings are Lean `String`s; `len` is the UTF-8 byte size and
  `strings.HasPrefix` compares leading characters.
* A Go slice that may be `nil` is an `Option (List _)`: `none` is the nil slice,
  `some l` is a non-nil slice holding `l` (`make(_, 0, 10)` is `some []`, and
  `append` on a non-nil slice stays non-nil).
* `*log.Entry` pointers are taken to be valid and are represented by the record
  they point to.
* The goroutine spawned by `sendEntries` is represented by a `Delivery`: the
  message text captured by the closure together with the URL the closure reads
  back from the notifier.  Every method returns the updated notifier together
  with the deliveries it dispatched, in dispatch order.
* The body of that goroutine is `deliveryTask`; `json.Marshal` and `http.Post`
  are library calls and enter as the fields of a `World`.  A nil pointer is
  `none`, and dereferencing it ends the task with `Ending.panicked`.
-/

namespace Watchtower

/-- The severity of a log entry (`logrus.Level`, a `uint32`). -/
abbrev Level := Nat

/-- The parts of `logrus.Entry` that the notifier can observe. -/
structure Entry where
  /-- Severity of the entry. -/
  Level : Level
  /-- Text passed to the logging call. -/
  Message : String
  /-- Structured fields attached to the entry. -/
  Data : List (String × String)
  deriving DecidableEq, Repr

/-- The receiver type: `hangoutsTypeNotifier`. -/
structure hangoutsTypeNotifier where
  /-- Webhook URL. -/
  hangoutsURL : String
  /-- Batch buffer; `none` is the nil slice. -/
  entries : Option (List Entry)
  /-- Accepted levels. -/
  logLevels : List Level
  deriving DecidableEq, Repr

/-- A dispatched background delivery: the goroutine started by `sendEntries`
with the message it captured and the URL it posts to. -/
structure Delivery where
  /-- Value of `n.getURL()` read by the goroutine. -/
  url : String
  /-- Captured `msg`, the `Text` of the posted `hangoutsMessage`. -/
  text : String
  deriving DecidableEq, Repr

/-- Go `strings.HasPrefix(s, pre)`. -/
def HasPrefix (s pre : String) : Bool :=
  pre.data.isPrefixOf s.data

/-- What `newHangoutsNotifier` leaves behind when it returns. -/
structure Constructed where
  /-- The returned notifier `n`. -/
  notifier : hangoutsTypeNotifier
  /-- Messages passed to `log.Warn`, in order. -/
  warnings : List String
  /-- Hooks passed to `log.AddHook`, in order. -/
  hooks : List hangoutsTypeNotifier
  deriving DecidableEq, Repr

/-- Method `getURL`. -/
def getURL (n : hangoutsTypeNotifier) : String :=
  n.hangoutsURL

/-- Method `Levels`. -/
def Levels (n : hangoutsTypeNotifier) : List Level :=
  n.logLevels

/-- Function `newHangoutsNotifier`, on the value `hangoutsURL` read from the flag
`notification-hangouts-url`.  `log.Fatal` ends the process: it is the
`Except.error` outcome, carrying the fatal message. -/
def newHangoutsNotifier (hangoutsURL : String) (acceptedLogLevels : List Level) :
    Except String Constructed :=
  if hangoutsURL.utf8ByteSize < 1 then
    Except.error ("Required argument --notification-hangouts-url(cli) or " ++
      "WATCHTOWER_NOTIFICATION_HANGOUTS_CHAT_WEBHOOK_URL(env) is empty.")
  else if !(HasPrefix hangoutsURL "http://" || HasPrefix hangoutsURL "https://") then
    Except.error "Hangouts URL must start with \"http://\" or \"https://\""
  else
    let warnings :=
      if HasPrefix hangoutsURL "http://" then
        ["Using an HTTP url for Hangouts is insecure"]
      else []
    let n : hangoutsTypeNotifier :=
      { hangoutsURL := hangoutsURL, entries := none, logLevels := acceptedLogLevels }
    Except.ok { notifier := n, warnings := warnings, hooks := [n] }

/-- Method `buildMessage`: the loop `message += entry.Message + "\r\n"`. -/
def buildMessage (entries : List Entry) : String :=
  entries.foldl (fun message entry => message ++ (entry.Message ++ "\r\n")) ""

/-- Method `sendEntries`: build the message, then start one goroutine for it. -/
def sendEntries (n : hangoutsTypeNotifier) (entries : List Entry) : List Delivery :=
  let msg := buildMessage entries
  [{ url := getURL n, text := msg }]

/-- Method `StartNotification`. -/
def StartNotification (n : hangoutsTypeNotifier) : hangoutsTypeNotifier × List Delivery :=
  match n.entries with
  | none => ({ n with entries := some [] }, [])
  | some _ => (n, [])

/-- Method `SendNotification`. -/
def SendNotification (n : hangoutsTypeNotifier) : hangoutsTypeNotifier × List Delivery :=
  match n.entries with
  | none => (n, [])
  | some buffered =>
    if buffered.length ≤ 0 then (n, [])
    else
      let dispatched := sendEntries n buffered
      ({ n with entries := none }, dispatched)

/-- Method `Fire`.  The third component is the returned `error` (`none` is nil). -/
def Fire (n : hangoutsTypeNotifier) (entry : Entry) :
    hangoutsTypeNotifier × List Delivery × Option String :=
  match n.entries with
  | some buffered => ({ n with entries := some (buffered ++ [entry]) }, [], none)
  | none => (n, sendEntries n [entry], none)

/-- One call made on the hook by its host. -/
inductive Call where
  | start
  | fire (entry : Entry)
  | send
  deriving DecidableEq, Repr

/-- Effect of one call: the new notifier and the deliveries dispatched by it. -/
def step (n : hangoutsTypeNotifier) : Call → hangoutsTypeNotifier × List Delivery
  | Call.start => StartNotification n
  | Call.fire entry => ((Fire n entry).1, (Fire n entry).2.1)
  | Call.send => SendNotification n

/-- Effect of a sequence of calls made one after the other. -/
def run : List Call → hangoutsTypeNotifier → hangoutsTypeNotifier × List Delivery
  | [], n => (n, [])
  | c :: cs, n => ((run cs (step n c).1).1, (step n c).2 ++ (run cs (step n c).1).2)

/-- The calls of one batch cycle around the given entries. -/
def cycle (es : List Entry) : List Call :=
  Call.start :: (es.map Call.fire ++ [Call.send])

/-- A log entry that carries only a message. -/
def msgEntry (m : String) : Entry :=
  { Level := 4, Message := m, Data := [] }

/-- A notifier with no active batch. -/
def idleHook : hangoutsTypeNotifier :=
  { hangoutsURL := "https://chat.example.com/hook", entries := none, logLevels := [2, 3, 4] }

/-! ## The background delivery task -/

/-- The posted payload: `hangoutsMessage`. -/
structure hangoutsMessage where
  /-- JSON field `text`. -/
  Text : String
  deriving DecidableEq, Repr

/-- The part of `*http.Response` that the task reads. -/
structure Response where
  /-- Field `StatusCode`, a Go `int`. -/
  StatusCode : Int
  deriving DecidableEq, Repr

/-- One call of `http.Post(url, contentType, body)`. -/
structure PostRequest where
  /-- First argument. -/
  url : String
  /-- Second argument. -/
  contentType : String
  /-- Bytes of the third argument. -/
  body : String
  deriving DecidableEq, Repr

/-- The library calls made by the task, as seen from the task.  `marshal` is
`json.Marshal` (the encoded body, or the error text); `post` is `http.Post`,
returning the pair `(resp, err)` with `none` for a nil pointer and for a nil
error. -/
structure World where
  /-- Library function `json.Marshal` on a `hangoutsMessage`. -/
  marshal : hangoutsMessage → Except String String
  /-- Library function `http.Post`. -/
  post : String → String → String → Option Response × Option String

/-- A line written to standard output by the task. -/
inductive Diagnostic where
  | marshalFailed (err : String)
  | sendFailed (err : String)
  | badStatus (code : Int)
  deriving DecidableEq, Repr

/-- The characters written for a diagnostic: `fmt.Println` puts a blank between
its operands and ends the line, `fmt.Printf` writes the format with `%d` filled
in. -/
def Diagnostic.text : Diagnostic → String
  | Diagnostic.marshalFailed err =>
    "Failed to create JSON body for Hangouts notification: " ++ " " ++ err ++ "\n"
  | Diagnostic.sendFailed err =>
    "Failed to send Hangouts notification: " ++ " " ++ err ++ "\n"
  | Diagnostic.badStatus code =>
    "Hangouts notification returned " ++ toString code ++ " HTTP status code"

/-- How the goroutine ends.  A panic is not recovered anywhere in the task, so it
ends the whole process. -/
inductive Ending where
  | returned
  | panicked
  deriving DecidableEq, Repr

/-- Everything one run of the task does. -/
structure TaskRun where
  /-- Diagnostics written, in order. -/
  printed : List Diagnostic
  /-- Calls of `http.Post`, in order. -/
  posts : List PostRequest
  /-- Number of times the deferred `resp.Body.Close()` ran. -/
  closed : Nat
  /-- Normal return or panic. -/
  ending : Ending
  deriving DecidableEq, Repr

/-- The function literal started with `go` inside `sendEntries`, run for the
delivery `d` (captured `msg` is `d.text`, `n.getURL()` is `d.url`).  After a
failed `http.Post` the diagnostic is printed and control falls through to
`defer resp.Body.Close()`; evaluating `resp.Body` on a nil `resp` panics. -/
def deliveryTask (w : World) (d : Delivery) : TaskRun :=
  match w.marshal { Text := d.text } with
  | Except.error err =>
    { printed := [Diagnostic.marshalFailed err], posts := [], closed := 0,
      ending := Ending.returned }
  | Except.ok jsonBody =>
    let request : PostRequest :=
      { url := d.url, contentType := "application/json", body := jsonBody }
    let answer := w.post d.url "application/json" jsonBody
    let printed :=
      match answer.2 with
      | some err => [Diagnostic.sendFailed err]
      | none => []
    match answer.1 with
    | none =>
      { printed := printed, posts := [request], closed := 0, ending := Ending.panicked }
    | some resp =>
      let status :=
        if resp.StatusCode < 200 ∨ resp.StatusCode ≥ 300 then
          [Diagnostic.badStatus resp.StatusCode]
        else []
      { printed := printed ++ status, posts := [request], closed := 1,
        ending := Ending.returned }

/-- A world in which the two library calls give fixed results. -/
def scripted (encoded : Except String String)
    (answer : Option Response × Option String) : World :=
  { marshal := fun _ => encoded, post := fun _ _ _ => answer }

/-! ## Bookkeeping for call sequences -/

/-- The argument slices of the `sendEntries` calls made during one call on the
hook, in order: none in `StartNotification`, `[]*log.Entry{entry}` in the idle
branch of `Fire`, `n.entries` past the guard of `SendNotification`. -/
def sentBy (n : hangoutsTypeNotifier) : Call → List (List Entry)
  | Call.start => []
  | Call.fire entry =>
    match n.entries with
    | some _ => []
    | none => [[entry]]
  | Call.send =>
    match n.entries with
    | none => []
    | some buffered => if buffered.length ≤ 0 then [] else [buffered]

/-- The argument slices of all `sendEntries` calls made during a sequence of
calls, in order. -/
def sent : List Call → hangoutsTypeNotifier → List (List Entry)
  | [], _ => []
  | c :: cs, n => sentBy n c ++ sent cs (step n c).1

/-- The entries passed to `Fire` in a sequence of calls, in order. -/
def fired : List Call → List Entry
  | [] => []
  | Call.fire entry :: cs => entry :: fired cs
  | Call.start :: cs => fired cs
  | Call.send :: cs => fired cs

/-- The entries currently held in the buffer (none when it is nil). -/
def buffer (n : hangoutsTypeNotifier) : List Entry :=
  match n.entries with
  | none => []
  | some buffered => buffered

/-- Whether a call is `SendNotification`. -/
def Call.isSend : Call → Bool
  | Call.send => true
  | _ => false

/-! ## Auxiliary facts -/

theorem foldl_append_start (l : List String) (acc : String) :
    l.foldl (fun r x => r ++ x) acc = acc ++ l.foldl (fun r x => r ++ x) "" := by
  induction l generalizing acc with
  | nil => simp
  | cons x xs ih =>
    simp only [List.foldl_cons]
    rw [ih (acc ++ x), ih ("" ++ x)]
    simp [String.append_assoc]

theorem join_cons (x : String) (l : List String) :
    String.join (x :: l) = x ++ String.join l := by
  unfold String.join
  simp only [List.foldl_cons]
  rw [foldl_append_start]
  simp

theorem buildMessage_from (es : List Entry) (acc : String) :
    es.foldl (fun message entry => message ++ (entry.Message ++ "\r\n")) acc =
      acc ++ String.join (es.map fun e => e.Message ++ "\r\n") := by
  induction es generalizing acc with
  | nil => simp [String.join]
  | cons e es ih =>
    simp only [List.foldl_cons, List.map_cons]
    rw [ih, join_cons, String.append_assoc]

theorem buildMessage_eq_join (es : List Entry) :
    buildMessage es = String.join (es.map fun e => e.Message ++ "\r\n") := by
  unfold buildMessage
  rw [buildMessage_from]
  simp

theorem run_append (cs ds : List Call) (n : hangoutsTypeNotifier) :
    run (cs ++ ds) n = ((run ds (run cs n).1).1, (run cs n).2 ++ (run ds (run cs n).1).2) := by
  induction cs generalizing n with
  | nil => simp [run]
  | cons c cs ih => simp [run, ih, List.append_assoc]

theorem run_fires (es buffered : List Entry) (url : String) (lv : List Level) :
    run (es.map Call.fire) { hangoutsURL := url, entries := some buffered, logLevels := lv } =
      ({ hangoutsURL := url, entries := some (buffered ++ es), logLevels := lv }, []) := by
  induction es generalizing buffered with
  | nil => simp [run]
  | cons e es ih => simp [run, step, Fire, ih, List.append_assoc]

theorem run_cycle (es : List Entry) (url : String) (lv : List Level) :
    (run (cycle es) { hangoutsURL := url, entries := none, logLevels := lv }).2 =
      (SendNotification { hangoutsURL := url, entries := some es, logLevels := lv }).2 := by
  unfold cycle
  simp [run, step, StartNotification, run_append, run_fires]

theorem hasPrefix_iff (s pre : String) :
    HasPrefix s pre = true ↔ ∃ rest : String, s = pre ++ rest := by
  unfold HasPrefix
  rw [List.isPrefixOf_iff_prefix]
  constructor
  · rintro ⟨t, ht⟩
    exact ⟨⟨t⟩, String.ext (by simp [String.data_append, ht])⟩
  · rintro ⟨r, hr⟩
    exact ⟨r.data, by simp [hr, String.data_append]⟩

theorem len_lt_one_iff (s : String) : s.utf8ByteSize < 1 ↔ s = "" := by
  cases s with
  | mk cs =>
    rw [String.utf8ByteSize_mk, Nat.lt_one_iff, String.utf8Len_eq_zero]
    constructor
    · intro h; subst h; rfl
    · intro h; exact congrArg String.data h

/-! ## Batch cycle -/

/-- C1 (as amended): from a hook with no active batch, `StartNotification`, then
`Fire` on each of a non-empty sequence of entries, then `SendNotification`
dispatches exactly one delivery, whose text is every entry's message followed by
`"\r\n"`, concatenated in call order; for the empty sequence nothing is
dispatched. -/
theorem cycle_dispatch (n : hangoutsTypeNotifier) (es : List Entry)
    (hidle : n.entries = none) :
    (es ≠ [] → (run (cycle es) n).2 =
        [{ url := n.hangoutsURL,
           text := String.join (es.map fun e => e.Message ++ "\r\n") }]) ∧
    (es = [] → (run (cycle es) n).2 = []) := by
  obtain ⟨url, buf, lv⟩ := n
  simp only at hidle
  subst hidle
  rw [run_cycle]
  constructor
  · intro hne
    cases es with
    | nil => exact absurd rfl hne
    | cons e es =>
      simp [SendNotification, sendEntries, getURL, buildMessage_eq_join]
  · intro he
    subst he
    simp [SendNotification]

/-- Instance of `cycle_dispatch` for a batch of two entries. -/
theorem cycle_dispatch_witness :
    idleHook.entries = none ∧
    (run (cycle [msgEntry "a", msgEntry "b"]) idleHook).2 =
      [{ url := idleHook.hangoutsURL,
         text := String.join
           ([msgEntry "a", msgEntry "b"].map fun e => e.Message ++ "\r\n") }] :=
  ⟨rfl, (cycle_dispatch idleHook [msgEntry "a", msgEntry "b"] rfl).1 (by decide)⟩

/-- C1 (as stated) fails: an empty batch dispatches no delivery at all, and the
delivery of the batch `a`, `b` carries `"a\r\nb\r\n"`, which is not the two
messages joined by `"\r\n"`. -/
theorem cycle_joined_counterexample :
    (¬ ∃ d : Delivery, (run (cycle []) idleHook).2 = [d]) ∧
    (¬ ∃ d : Delivery, (run (cycle [msgEntry "a", msgEntry "b"]) idleHook).2 = [d] ∧
        d.text = String.intercalate "\r\n"
          ([msgEntry "a", msgEntry "b"].map fun e => e.Message)) := by
  constructor
  · rintro ⟨d, hd⟩
    have h0 : (run (cycle []) idleHook).2 = [] := by decide
    rw [h0] at hd
    exact List.noConfusion hd
  · rintro ⟨d, hd, ht⟩
    have h2 : (run (cycle [msgEntry "a", msgEntry "b"]) idleHook).2 =
        [{ url := "https://chat.example.com/hook", text := "a\r\nb\r\n" }] := by decide
    rw [h2] at hd
    have hd' : d = { url := "https://chat.example.com/hook", text := "a\r\nb\r\n" } :=
      (List.cons.inj hd).1.symm
    subst hd'
    exact absurd ht (by decide)

/-- C2: `buildMessage` is the concatenation, in list order, of each entry's
message followed by `"\r\n"`; two lists with the same message texts (whatever
their levels and fields) give the same result; and from an idle hook
`StartNotification; Fire a; Fire b; SendNotification` dispatches exactly one
delivery with text `"a\r\nb\r\n"`. -/
theorem buildMessage_lines (es es' : List Entry)
    (hmsg : es.map (fun e => e.Message) = es'.map (fun e => e.Message)) :
    buildMessage es = String.join (es.map fun e => e.Message ++ "\r\n") ∧
    buildMessage es = buildMessage es' ∧
    (∀ (url : String) (lv : List Level) (la lb : Level) (fa fb : List (String × String)),
      (run [Call.start, Call.fire { Level := la, Message := "a", Data := fa },
            Call.fire { Level := lb, Message := "b", Data := fb }, Call.send]
          { hangoutsURL := url, entries := none, logLevels := lv }).2 =
        [{ url := url, text := "a\r\nb\r\n" }]) := by
  refine ⟨buildMessage_eq_join es, ?_, ?_⟩
  · rw [buildMessage_eq_join, buildMessage_eq_join]
    have h1 : ∀ l : List Entry, (l.map fun e => e.Message ++ "\r\n") =
        (l.map fun e => e.Message).map (fun m => m ++ "\r\n") := by
      intro l; simp
    rw [h1 es, h1 es', hmsg]
  · intro url lv la lb fa fb
    simp [run, step, StartNotification, Fire, SendNotification, sendEntries, getURL,
      buildMessage]

/-- Instance of `buildMessage_lines`: entries that differ in level and fields
only. -/
theorem buildMessage_lines_witness :
    buildMessage [{ Level := 1, Message := "a", Data := [("k", "v")] },
                  { Level := 5, Message := "b", Data := [] }] =
      buildMessage [msgEntry "a", msgEntry "b"] :=
  (buildMessage_lines
    [{ Level := 1, Message := "a", Data := [("k", "v")] },
     { Level := 5, Message := "b", Data := [] }]
    [msgEntry "a", msgEntry "b"] (by decide)).2.1

/-! ## Single calls -/

/-- C3: on a hook whose buffer is non-null and non-empty, `SendNotification`
dispatches exactly one delivery, built from exactly the buffered entries in
buffered order, and leaves the buffer null; whatever calls follow, that delivery
stays as dispatched and the later deliveries are those of a hook with no active
batch, so an entry fired next goes out in a delivery of its own. -/
theorem SendNotification_hands_off (n : hangoutsTypeNotifier) (buffered : List Entry)
    (hbuf : n.entries = some buffered) (hne : buffered ≠ []) :
    SendNotification n =
      ({ n with entries := none },
       [{ url := n.hangoutsURL, text := buildMessage buffered }]) ∧
    buildMessage buffered = String.join (buffered.map fun e => e.Message ++ "\r\n") ∧
    (∀ later : List Call, (run (Call.send :: later) n).2 =
      { url := n.hangoutsURL, text := buildMessage buffered } ::
        (run later { n with entries := none }).2) ∧
    (∀ entry : Entry, (run [Call.send, Call.fire entry] n).2 =
      [{ url := n.hangoutsURL, text := buildMessage buffered },
       { url := n.hangoutsURL, text := entry.Message ++ "\r\n" }]) := by
  obtain ⟨url, buf, lv⟩ := n
  simp only at hbuf
  subst hbuf
  have hlen : ¬ buffered.length ≤ 0 := by
    cases buffered with
    | nil => exact absurd rfl hne
    | cons e es => simp
  have hsend : SendNotification
      { hangoutsURL := url, entries := some buffered, logLevels := lv } =
      ({ hangoutsURL := url, entries := none, logLevels := lv },
       [{ url := url, text := buildMessage buffered }]) := by
    simp only [SendNotification, if_neg hlen, sendEntries, getURL]
  refine ⟨hsend, buildMessage_eq_join buffered, ?_, ?_⟩
  · intro later
    simp [run, step, hsend]
  · intro entry
    simp [run, step, hsend, Fire, sendEntries, getURL, buildMessage]

/-- Instance of `SendNotification_hands_off` on a buffer of two entries. -/
theorem SendNotification_hands_off_witness :
    SendNotification
        { hangoutsURL := "https://h", entries := some [msgEntry "a", msgEntry "b"],
          logLevels := [4] } =
      ({ hangoutsURL := "https://h", entries := none, logLevels := [4] },
       [{ url := "https://h", text := buildMessage [msgEntry "a", msgEntry "b"] }]) :=
  (SendNotification_hands_off
    { hangoutsURL := "https://h", entries := some [msgEntry "a", msgEntry "b"],
      logLevels := [4] }
    [msgEntry "a", msgEntry "b"] rfl (by decide)).1

/-- C4: with an active batch, `Fire` puts the entry at the end of the buffer,
keeps the entries already buffered as they were, dispatches no delivery and
returns no error. -/
theorem Fire_active_appends (n : hangoutsTypeNotifier) (buffered : List Entry)
    (entry : Entry) (hbuf : n.entries = some buffered) :
    Fire n entry = ({ n with entries := some (buffered ++ [entry]) }, [], none) := by
  obtain ⟨url, buf, lv⟩ := n
  simp only at hbuf
  subst hbuf
  rfl

/-- Instance of `Fire_active_appends` on a buffer holding one entry. -/
theorem Fire_active_appends_witness :
    Fire { hangoutsURL := "https://h", entries := some [msgEntry "a"], logLevels := [4] }
        (msgEntry "b") =
      ({ hangoutsURL := "https://h", entries := some ([msgEntry "a"] ++ [msgEntry "b"]),
         logLevels := [4] }, [], none) :=
  Fire_active_appends
    { hangoutsURL := "https://h", entries := some [msgEntry "a"], logLevels := [4] }
    [msgEntry "a"] (msgEntry "b") rfl

/-- C5: with no active batch, `Fire` dispatches exactly one delivery, whose text
is the entry's message followed by `"\r\n"`, and leaves the hook as it was, the
buffer still null; the deliveries of any later calls are those the hook would
dispatch had the entry never been fired. -/
theorem Fire_idle_sends (n : hangoutsTypeNotifier) (entry : Entry)
    (hidle : n.entries = none) :
    Fire n entry =
      (n, [{ url := n.hangoutsURL, text := entry.Message ++ "\r\n" }], none) ∧
    (Fire n entry).1.entries = none ∧
    (∀ later : List Call, (run (Call.fire entry :: later) n).2 =
      { url := n.hangoutsURL, text := entry.Message ++ "\r\n" } :: (run later n).2) := by
  obtain ⟨url, buf, lv⟩ := n
  simp only at hidle
  subst hidle
  have hfire : Fire { hangoutsURL := url, entries := none, logLevels := lv } entry =
      ({ hangoutsURL := url, entries := none, logLevels := lv },
       [{ url := url, text := entry.Message ++ "\r\n" }], none) := by
    simp [Fire, sendEntries, getURL, buildMessage]
  refine ⟨hfire, by rw [hfire], ?_⟩
  intro later
  simp [run, step, hfire]

/-- Instance of `Fire_idle_sends` on the idle hook. -/
theorem Fire_idle_sends_witness :
    Fire idleHook (msgEntry "a") =
      (idleHook, [{ url := idleHook.hangoutsURL, text := (msgEntry "a").Message ++ "\r\n" }],
       none) :=
  (Fire_idle_sends idleHook (msgEntry "a") rfl).1

/-- C6: `StartNotification` on a hook with no active batch makes the buffer the
empty non-null sequence and dispatches nothing; on a hook with an active batch it
changes nothing and dispatches nothing; applying it twice gives the state of
applying it once. -/
theorem StartNotification_idempotent (url : String) (lv : List Level) :
    StartNotification { hangoutsURL := url, entries := none, logLevels := lv } =
      ({ hangoutsURL := url, entries := some [], logLevels := lv }, []) ∧
    (∀ buffered : List Entry,
      StartNotification { hangoutsURL := url, entries := some buffered, logLevels := lv } =
        ({ hangoutsURL := url, entries := some buffered, logLevels := lv }, [])) ∧
    (∀ n : hangoutsTypeNotifier,
      StartNotification (StartNotification n).1 = ((StartNotification n).1, []) ∧
      run [Call.start, Call.start] n = run [Call.start] n) := by
  refine ⟨rfl, fun _ => rfl, ?_⟩
  rintro ⟨u, buf, l⟩
  cases buf with
  | none => simp [run, step, StartNotification]
  | some b => simp [run, step, StartNotification]

/-- C7: on a hook whose buffer is null or empty, `SendNotification` dispatches
nothing and returns the hook unchanged (buffer, URL and levels). -/
theorem SendNotification_noop (n : hangoutsTypeNotifier)
    (hempty : n.entries = none ∨ n.entries = some []) :
    SendNotification n = (n, []) := by
  obtain ⟨url, buf, lv⟩ := n
  simp only at hempty
  rcases hempty with h | h <;> subst h <;> rfl

/-- Instance of `SendNotification_noop` on an active, empty batch. -/
theorem SendNotification_noop_witness :
    SendNotification { hangoutsURL := "https://h", entries := some [], logLevels := [4] } =
      ({ hangoutsURL := "https://h", entries := some [], logLevels := [4] }, []) :=
  SendNotification_noop
    { hangoutsURL := "https://h", entries := some [], logLevels := [4] } (Or.inr rfl)

/-- C8: for every hook state, a second `SendNotification` right after a first
one dispatches nothing and leaves the state of the first call unchanged, so the
two calls dispatch at most one delivery in total. -/
theorem SendNotification_twice (n : hangoutsTypeNotifier) :
    SendNotification (SendNotification n).1 = ((SendNotification n).1, []) ∧
    (run [Call.send, Call.send] n).2 = (SendNotification n).2 ∧
    (run [Call.send, Call.send] n).2.length ≤ 1 := by
  obtain ⟨url, buf, lv⟩ := n
  cases buf with
  | none => simp [run, step, SendNotification]
  | some b =>
    cases b with
    | nil => simp [run, step, SendNotification]
    | cons e es => simp [run, step, SendNotification, sendEntries]

/-! ## Construction -/

theorem newHangoutsNotifier_ok (url : String) (lv : List Level)
    (hne : url ≠ "")
    (hscheme : HasPrefix url "http://" = true ∨ HasPrefix url "https://" = true) :
    newHangoutsNotifier url lv = Except.ok
      { notifier := { hangoutsURL := url, entries := none, logLevels := lv },
        warnings := if HasPrefix url "http://" then
          ["Using an HTTP url for Hangouts is insecure"] else [],
        hooks := [{ hangoutsURL := url, entries := none, logLevels := lv }] } := by
  have hlen : ¬ url.utf8ByteSize < 1 := fun h => hne ((len_lt_one_iff url).1 h)
  have hpre : (!(HasPrefix url "http://" || HasPrefix url "https://")) = false := by
    rcases hscheme with h | h <;> simp [h]
  unfold newHangoutsNotifier
  rw [if_neg hlen, hpre]
  rfl

theorem newHangoutsNotifier_fatal (url : String) (lv : List Level)
    (hbad : url = "" ∨
      ¬ (HasPrefix url "http://" = true ∨ HasPrefix url "https://" = true)) :
    ∃ msg : String, newHangoutsNotifier url lv = Except.error msg := by
  unfold newHangoutsNotifier
  by_cases hlen : url.utf8ByteSize < 1
  · rw [if_pos hlen]
    exact ⟨_, rfl⟩
  · rw [if_neg hlen]
    have hne : url ≠ "" := fun h => hlen ((len_lt_one_iff url).2 h)
    rcases hbad with h | h
    · exact absurd h hne
    · have hpre : (!(HasPrefix url "http://" || HasPrefix url "https://")) = true := by
        cases h1 : HasPrefix url "http://" <;> cases h2 : HasPrefix url "https://" <;>
          simp_all
      rw [hpre]
      exact ⟨_, rfl⟩

/-- C9: `newHangoutsNotifier` takes the fatal path exactly when the URL is empty
or begins with neither `"http://"` nor `"https://"` (so `""` and
`"ftp://example.com"` are fatal); for every other URL it returns a hook holding
that URL unchanged, the given accepted levels and no active batch, and registers
that hook. -/
theorem newHangoutsNotifier_fatal_iff (url : String) (lv : List Level) :
    ((∃ msg : String, newHangoutsNotifier url lv = Except.error msg) ↔
      (url = "" ∨ ¬ ((∃ rest : String, url = "http://" ++ rest) ∨
                     (∃ rest : String, url = "https://" ++ rest)))) ∧
    (¬ (url = "" ∨ ¬ ((∃ rest : String, url = "http://" ++ rest) ∨
                      (∃ rest : String, url = "https://" ++ rest))) →
      ∃ c : Constructed, newHangoutsNotifier url lv = Except.ok c ∧
        c.notifier = { hangoutsURL := url, entries := none, logLevels := lv } ∧
        c.hooks = [c.notifier]) ∧
    (∃ msg : String, newHangoutsNotifier "" lv = Except.error msg) ∧
    (∃ msg : String, newHangoutsNotifier "ftp://example.com" lv = Except.error msg) := by
  rw [← hasPrefix_iff, ← hasPrefix_iff]
  have hgood : ¬ (url = "" ∨
      ¬ (HasPrefix url "http://" = true ∨ HasPrefix url "https://" = true)) →
      ∃ c : Constructed, newHangoutsNotifier url lv = Except.ok c ∧
        c.notifier = { hangoutsURL := url, entries := none, logLevels := lv } ∧
        c.hooks = [c.notifier] := by
    intro h
    have hne : url ≠ "" := fun h' => h (Or.inl h')
    have hs : HasPrefix url "http://" = true ∨ HasPrefix url "https://" = true :=
      Classical.not_not.1 (fun h' => h (Or.inr h'))
    exact ⟨_, newHangoutsNotifier_ok url lv hne hs, rfl, rfl⟩
  refine ⟨⟨?_, newHangoutsNotifier_fatal url lv⟩, hgood, ?_, ?_⟩
  · rintro ⟨msg, hmsg⟩
    by_contra hcon
    obtain ⟨c, hc, _⟩ := hgood hcon
    rw [hc] at hmsg
    exact Except.noConfusion hmsg
  · exact newHangoutsNotifier_fatal "" lv (Or.inl rfl)
  · exact newHangoutsNotifier_fatal "ftp://example.com" lv (Or.inr (by decide))

/-- Instance of `newHangoutsNotifier_fatal_iff` at an accepted URL. -/
theorem newHangoutsNotifier_fatal_iff_witness :
    ∃ c : Constructed,
      newHangoutsNotifier "https://chat.example.com/hook" [2, 3, 4] = Except.ok c ∧
      c.notifier = { hangoutsURL := "https://chat.example.com/hook", entries := none,
                     logLevels := [2, 3, 4] } ∧
      c.hooks = [c.notifier] :=
  (newHangoutsNotifier_fatal_iff "https://chat.example.com/hook" [2, 3, 4]).2.1
    (by
      rw [← hasPrefix_iff, ← hasPrefix_iff]
      decide)

/-- C10: `newHangoutsNotifier` emits the insecure-URL warning exactly when the
URL begins with `"http://"`, and then construction succeeds (as for
`"http://example.com"`); for a URL that begins with `"https://"` construction
succeeds with no warning. -/
theorem newHangoutsNotifier_warns_iff (url : String) (lv : List Level) :
    ((∃ c : Constructed, newHangoutsNotifier url lv = Except.ok c ∧
        "Using an HTTP url for Hangouts is insecure" ∈ c.warnings) ↔
      ∃ rest : String, url = "http://" ++ rest) ∧
    ((∃ rest : String, url = "http://" ++ rest) →
      ∃ c : Constructed, newHangoutsNotifier url lv = Except.ok c ∧
        c.notifier = { hangoutsURL := url, entries := none, logLevels := lv } ∧
        c.warnings = ["Using an HTTP url for Hangouts is insecure"]) ∧
    ((∃ rest : String, url = "https://" ++ rest) →
      ∃ c : Constructed, newHangoutsNotifier url lv = Except.ok c ∧ c.warnings = []) ∧
    (∃ c : Constructed, newHangoutsNotifier "http://example.com" lv = Except.ok c ∧
        c.warnings = ["Using an HTTP url for Hangouts is insecure"]) := by
  have hhttp : ∀ u : String, HasPrefix u "http://" = true →
      ∃ c : Constructed, newHangoutsNotifier u lv = Except.ok c ∧
        c.notifier = { hangoutsURL := u, entries := none, logLevels := lv } ∧
        c.warnings = ["Using an HTTP url for Hangouts is insecure"] := by
    intro u hu
    have hne : u ≠ "" := by
      intro h
      subst h
      exact absurd hu (by decide)
    refine ⟨_, newHangoutsNotifier_ok u lv hne (Or.inl hu), rfl, ?_⟩
    simp [hu]
  rw [← hasPrefix_iff, ← hasPrefix_iff]
  refine ⟨⟨?_, ?_⟩, hhttp url, ?_, ?_⟩
  · rintro ⟨c, hc, hw⟩
    by_contra hno
    by_cases hbad : url = "" ∨
        ¬ (HasPrefix url "http://" = true ∨ HasPrefix url "https://" = true)
    · obtain ⟨msg, hmsg⟩ := newHangoutsNotifier_fatal url lv hbad
      rw [hmsg] at hc
      exact Except.noConfusion hc
    · have hne : url ≠ "" := fun h' => hbad (Or.inl h')
      have hs : HasPrefix url "http://" = true ∨ HasPrefix url "https://" = true :=
        Classical.not_not.1 (fun h' => hbad (Or.inr h'))
      rw [newHangoutsNotifier_ok url lv hne hs] at hc
      have hc' := Except.ok.inj hc
      subst hc'
      simp [hno] at hw
  · intro hu
    obtain ⟨c, hc, _, hw⟩ := hhttp url hu
    exact ⟨c, hc, by simp [hw]⟩
  · intro hu
    have hne : url ≠ "" := by
      intro h
      subst h
      exact absurd hu (by decide)
    have hnot : HasPrefix url "http://" = false := by
      obtain ⟨rest, hr⟩ := (hasPrefix_iff url "https://").1 hu
      subst hr
      cases hcase : HasPrefix ("https://" ++ rest) "http://" with
      | false => rfl
      | true =>
        obtain ⟨r2, hr2⟩ := (hasPrefix_iff _ _).1 hcase
        have hd := congrArg String.data hr2
        simp [String.data_append] at hd
    refine ⟨_, newHangoutsNotifier_ok url lv hne (Or.inr hu), ?_⟩
    simp [hnot]
  · obtain ⟨c, hc, _, hw⟩ := hhttp "http://example.com" (by decide)
    exact ⟨c, hc, hw⟩

/-- Instance of `newHangoutsNotifier_warns_iff` at a plain-HTTP URL. -/
theorem newHangoutsNotifier_warns_iff_witness :
    ∃ c : Constructed, newHangoutsNotifier "http://example.com" [2, 3, 4] = Except.ok c ∧
      c.notifier = { hangoutsURL := "http://example.com", entries := none,
                     logLevels := [2, 3, 4] } ∧
      c.warnings = ["Using an HTTP url for Hangouts is insecure"] :=
  (newHangoutsNotifier_warns_iff "http://example.com" [2, 3, 4]).2.1
    ⟨"example.com", by decide⟩

/-! ## The delivery task -/

theorem deliveryTask_marshal_error (w : World) (d : Delivery) (err : String)
    (hm : w.marshal { Text := d.text } = Except.error err) :
    deliveryTask w d =
      { printed := [Diagnostic.marshalFailed err], posts := [], closed := 0,
        ending := Ending.returned } := by
  unfold deliveryTask
  rw [hm]

theorem deliveryTask_no_response (w : World) (d : Delivery) (body : String)
    (err : Option String)
    (hm : w.marshal { Text := d.text } = Except.ok body)
    (hp : w.post d.url "application/json" body = (none, err)) :
    deliveryTask w d =
      { printed := err.toList.map Diagnostic.sendFailed,
        posts := [{ url := d.url, contentType := "application/json", body := body }],
        closed := 0, ending := Ending.panicked } := by
  unfold deliveryTask
  rw [hm]
  simp only [hp]
  cases err <;> rfl

theorem deliveryTask_response (w : World) (d : Delivery) (body : String)
    (resp : Response) (err : Option String)
    (hm : w.marshal { Text := d.text } = Except.ok body)
    (hp : w.post d.url "application/json" body = (some resp, err)) :
    deliveryTask w d =
      { printed := err.toList.map Diagnostic.sendFailed ++
          (if resp.StatusCode < 200 ∨ resp.StatusCode ≥ 300 then
            [Diagnostic.badStatus resp.StatusCode] else []),
        posts := [{ url := d.url, contentType := "application/json", body := body }],
        closed := 1, ending := Ending.returned } := by
  unfold deliveryTask
  rw [hm]
  simp only [hp]
  cases err <;> rfl

/-- C11 (the code at the failing input): when `json.Marshal` succeeds and
`http.Post` returns no response together with an error, the task makes its one
POST, prints the send-failure diagnostic and then panics on `resp.Body` instead
of abandoning the delivery. -/
theorem deliveryTask_transport_error_panics (w : World) (d : Delivery)
    (body err : String)
    (hm : w.marshal { Text := d.text } = Except.ok body)
    (hp : w.post d.url "application/json" body = (none, some err)) :
    deliveryTask w d =
      { printed := [Diagnostic.sendFailed err],
        posts := [{ url := d.url, contentType := "application/json", body := body }],
        closed := 0, ending := Ending.panicked } := by
  rw [deliveryTask_no_response w d body (some err) hm hp]
  rfl

/-- Instance of `deliveryTask_transport_error_panics`: a refused connection for
the out-of-band delivery of the message `a`. -/
theorem deliveryTask_transport_error_panics_witness :
    (deliveryTask
      (scripted (Except.ok "\x7b\"text\":\"a\\r\\n\"\x7d")
        (none, some "dial tcp 10.0.0.1:443: connect: connection refused"))
      { url := "https://chat.example.com/hook", text := "a\r\n" }).ending =
      Ending.panicked :=
  congrArg TaskRun.ending
    (deliveryTask_transport_error_panics
      (scripted (Except.ok "\x7b\"text\":\"a\\r\\n\"\x7d")
        (none, some "dial tcp 10.0.0.1:443: connect: connection refused"))
      { url := "https://chat.example.com/hook", text := "a\r\n" }
      "\x7b\"text\":\"a\\r\\n\"\x7d"
      "dial tcp 10.0.0.1:443: connect: connection refused" rfl rfl)

/-- C12: in a world where `json.Marshal` encodes a `hangoutsMessage` without
error, as the library does for a struct of one string field, the task of every
dispatched delivery calls `http.Post` exactly once, with the hook's URL, content
type `application/json` and the encoded body; and when a response is received the
status diagnostic is printed exactly when the status code lies outside 200..299
(500 prints, 200 and 299 do not). -/
theorem deliveryTask_single_post (w : World) (n : hangoutsTypeNotifier)
    (es : List Entry) (d : Delivery) (hd : d ∈ sendEntries n es)
    (hw : ∀ m : hangoutsMessage, ∃ body : String, w.marshal m = Except.ok body) :
    (deliveryTask w d).posts.length = 1 ∧
    (∃ body : String, w.marshal { Text := d.text } = Except.ok body ∧
      (deliveryTask w d).posts =
        [{ url := n.hangoutsURL, contentType := "application/json", body := body }]) ∧
    (∀ (body : String) (resp : Response) (err : Option String),
      w.marshal { Text := d.text } = Except.ok body →
      w.post n.hangoutsURL "application/json" body = (some resp, err) →
      (Diagnostic.badStatus resp.StatusCode ∈ (deliveryTask w d).printed ↔
        ¬ (200 ≤ resp.StatusCode ∧ resp.StatusCode ≤ 299))) ∧
    (∀ body : String,
      (deliveryTask (scripted (Except.ok body) (some { StatusCode := 500 }, none)) d).printed =
        [Diagnostic.badStatus 500] ∧
      (deliveryTask (scripted (Except.ok body) (some { StatusCode := 200 }, none)) d).printed =
        [] ∧
      (deliveryTask (scripted (Except.ok body) (some { StatusCode := 299 }, none)) d).printed =
        []) := by
  have hurl : d.url = n.hangoutsURL := by
    simp only [sendEntries, getURL, List.mem_singleton] at hd
    rw [hd]
  obtain ⟨b, hm⟩ := hw { Text := d.text }
  have hone : (deliveryTask w d).posts =
      [{ url := n.hangoutsURL, contentType := "application/json", body := b }] := by
    cases hp : w.post d.url "application/json" b with
    | mk r e =>
      cases r with
      | none => rw [deliveryTask_no_response w d b e hm hp, hurl]
      | some resp => rw [deliveryTask_response w d b resp e hm hp, hurl]
  refine ⟨by rw [hone]; rfl, ⟨b, hm, hone⟩, ?_, ?_⟩
  · intro body resp err hmb hp
    rw [← hurl] at hp
    rw [deliveryTask_response w d body resp err hmb hp]
    have hiff : (resp.StatusCode < 200 ∨ resp.StatusCode ≥ 300) ↔
        ¬ (200 ≤ resp.StatusCode ∧ resp.StatusCode ≤ 299) := by omega
    rw [← hiff]
    cases err with
    | none =>
      by_cases hs : resp.StatusCode < 200 ∨ resp.StatusCode ≥ 300
      · simp [hs]
      · simp [hs]
    | some e =>
      by_cases hs : resp.StatusCode < 200 ∨ resp.StatusCode ≥ 300
      · simp [hs]
      · simp [hs]
  · intro body
    refine ⟨?_, ?_, ?_⟩ <;> simp [deliveryTask, scripted]

/-- Instance of `deliveryTask_single_post`: the delivery of a fired entry that is
answered with status 500. -/
theorem deliveryTask_single_post_witness :
    (deliveryTask (scripted (Except.ok "body") (some { StatusCode := 500 }, none))
      { url := "https://chat.example.com/hook", text := "a\r\n" }).posts.length = 1 :=
  (deliveryTask_single_post
    (scripted (Except.ok "body") (some { StatusCode := 500 }, none)) idleHook
    [msgEntry "a"] { url := "https://chat.example.com/hook", text := "a\r\n" }
    (by decide) (fun _ => ⟨"body", rfl⟩)).1

/-- C13: `Fire` returns a nil error for every hook state and every entry, whether
it buffers or dispatches; and when the delivery it dispatched is answered with
status 500 the task posts once, prints the status diagnostic and returns, none of
which reaches the value returned by `Fire`. -/
theorem Fire_returns_nil (n : hangoutsTypeNotifier) (entry : Entry) :
    (Fire n entry).2.2 = none ∧
    (∀ (d : Delivery) (body : String), d ∈ (Fire n entry).2.1 →
      deliveryTask (scripted (Except.ok body) (some { StatusCode := 500 }, none)) d =
        { printed := [Diagnostic.badStatus 500],
          posts := [{ url := n.hangoutsURL, contentType := "application/json",
                      body := body }],
          closed := 1, ending := Ending.returned }) := by
  obtain ⟨url, buf, lv⟩ := n
  cases buf with
  | some b => simp [Fire]
  | none =>
    refine ⟨rfl, ?_⟩
    intro d body hd
    simp only [Fire, sendEntries, getURL, List.mem_singleton] at hd
    subst hd
    simp [deliveryTask, scripted]

/-- Instance of `Fire_returns_nil`: an out-of-band entry answered with 500. -/
theorem Fire_returns_nil_witness :
    (Fire idleHook (msgEntry "a")).2.2 = none ∧
    (deliveryTask (scripted (Except.ok "body") (some { StatusCode := 500 }, none))
      { url := "https://chat.example.com/hook", text := "a\r\n" }).ending =
      Ending.returned :=
  ⟨(Fire_returns_nil idleHook (msgEntry "a")).1,
   congrArg TaskRun.ending
     ((Fire_returns_nil idleHook (msgEntry "a")).2
       { url := "https://chat.example.com/hook", text := "a\r\n" } "body" (by decide))⟩

/-! ## Call sequences -/

theorem step_frame (n : hangoutsTypeNotifier) (c : Call) :
    (step n c).1.hangoutsURL = n.hangoutsURL ∧ (step n c).1.logLevels = n.logLevels := by
  obtain ⟨url, buf, lv⟩ := n
  cases c with
  | start => cases buf <;> simp [step, StartNotification]
  | fire e => cases buf <;> simp [step, Fire]
  | send =>
    cases buf with
    | none => simp [step, SendNotification]
    | some b => cases b <;> simp [step, SendNotification]

theorem run_frame (cs : List Call) (n : hangoutsTypeNotifier) :
    (run cs n).1.hangoutsURL = n.hangoutsURL ∧ (run cs n).1.logLevels = n.logLevels := by
  induction cs generalizing n with
  | nil => simp [run]
  | cons c cs ih =>
    simp only [run]
    rw [(ih (step n c).1).1, (ih (step n c).1).2]
    exact step_frame n c

theorem step_dispatch (n : hangoutsTypeNotifier) (c : Call) :
    (step n c).2 =
      (sentBy n c).map fun es => { url := n.hangoutsURL, text := buildMessage es } := by
  obtain ⟨url, buf, lv⟩ := n
  cases c with
  | start => cases buf <;> simp [step, StartNotification, sentBy]
  | fire e => cases buf <;> simp [step, Fire, sentBy, sendEntries, getURL]
  | send =>
    cases buf with
    | none => simp [step, SendNotification, sentBy]
    | some b => cases b <;> simp [step, SendNotification, sentBy, sendEntries, getURL]

theorem run_dispatch (cs : List Call) (n : hangoutsTypeNotifier) :
    (run cs n).2 =
      (sent cs n).map fun es => { url := n.hangoutsURL, text := buildMessage es } := by
  induction cs generalizing n with
  | nil => simp [run, sent]
  | cons c cs ih =>
    simp only [run, sent, List.map_append]
    rw [ih (step n c).1, step_dispatch n c, (step_frame n c).1]

theorem sent_append (cs ds : List Call) (n : hangoutsTypeNotifier) :
    sent (cs ++ ds) n = sent cs n ++ sent ds (run cs n).1 := by
  induction cs generalizing n with
  | nil => simp [run, sent]
  | cons c cs ih => simp [run, sent, ih, List.append_assoc]

theorem fired_append (cs ds : List Call) : fired (cs ++ ds) = fired cs ++ fired ds := by
  induction cs with
  | nil => simp [fired]
  | cons c cs ih => cases c <;> simp [fired, ih]

theorem step_account (n : hangoutsTypeNotifier) (c : Call) :
    (sentBy n c).flatten ++ buffer (step n c).1 = buffer n ++ fired [c] := by
  obtain ⟨url, buf, lv⟩ := n
  cases c with
  | start => cases buf <;> simp [step, StartNotification, sentBy, buffer, fired]
  | fire e => cases buf <;> simp [step, Fire, sentBy, buffer, fired]
  | send =>
    cases buf with
    | none => simp [step, SendNotification, sentBy, buffer, fired]
    | some b => cases b <;> simp [step, SendNotification, sentBy, buffer, fired]

theorem run_account (cs : List Call) (n : hangoutsTypeNotifier) :
    (sent cs n).flatten ++ buffer (run cs n).1 = buffer n ++ fired cs := by
  induction cs generalizing n with
  | nil => simp [run, sent, fired]
  | cons c cs ih =>
    have hstep := step_account n c
    have hrest := ih (step n c).1
    have hf : fired (c :: cs) = fired [c] ++ fired cs := fired_append [c] cs
    simp only [run, sent, List.flatten_append, List.append_assoc]
    rw [hrest, ← List.append_assoc, hstep, hf, List.append_assoc]

theorem sentBy_nonempty (n : hangoutsTypeNotifier) (c : Call) (b : List Entry)
    (hb : b ∈ sentBy n c) : b ≠ [] := by
  obtain ⟨url, buf, lv⟩ := n
  cases c with
  | start => simp [sentBy] at hb
  | fire e =>
    cases buf with
    | none =>
      simp [sentBy] at hb
      simp [hb]
    | some x => simp [sentBy] at hb
  | send =>
    cases buf with
    | none => simp [sentBy] at hb
    | some x =>
      cases x with
      | nil => simp [sentBy] at hb
      | cons y ys =>
        simp [sentBy] at hb
        simp [hb]

theorem sent_nonempty (cs : List Call) (n : hangoutsTypeNotifier) (b : List Entry)
    (hb : b ∈ sent cs n) : b ≠ [] := by
  induction cs generalizing n with
  | nil => simp [sent] at hb
  | cons c cs ih =>
    simp only [sent, List.mem_append] at hb
    rcases hb with h | h
    · exact sentBy_nonempty n c b h
    · exact ih (step n c).1 h

theorem run_without_send (cs : List Call) (url : String) (lv : List Level)
    (buffered : List Entry) (hns : ∀ c ∈ cs, c.isSend = false) :
    run cs { hangoutsURL := url, entries := some buffered, logLevels := lv } =
      ({ hangoutsURL := url, entries := some (buffered ++ fired cs), logLevels := lv }, []) := by
  induction cs generalizing buffered with
  | nil => simp [run, fired]
  | cons c cs ih =>
    have hrest : ∀ c' ∈ cs, c'.isSend = false := fun c' hc' =>
      hns c' (List.mem_cons_of_mem c hc')
    cases c with
    | start => simp [run, step, StartNotification, fired, ih buffered hrest]
    | fire e =>
      simp [run, step, Fire, fired, ih (buffered ++ [e]) hrest, List.append_assoc]
    | send =>
      have := hns Call.send (List.mem_cons_self _ _)
      simp [Call.isSend] at this

theorem buildMessage_append (xs ys : List Entry) :
    buildMessage (xs ++ ys) = buildMessage xs ++ buildMessage ys := by
  unfold buildMessage
  rw [List.foldl_append, buildMessage_from ys, buildMessage_from ys ""]
  simp

theorem buildMessage_ends (es : List Entry) (hne : es ≠ []) :
    ∃ start : String, buildMessage es = start ++ "\r\n" := by
  obtain ⟨init, last, rfl⟩ : ∃ init last, es = init ++ [last] :=
    ⟨es.dropLast, es.getLast hne, (List.dropLast_append_getLast hne).symm⟩
  refine ⟨buildMessage init ++ last.Message, ?_⟩
  rw [buildMessage_append, String.append_assoc]
  simp [buildMessage]

theorem constructed_notifier (url : String) (lv : List Level) (c : Constructed)
    (hnew : newHangoutsNotifier url lv = Except.ok c) :
    c.notifier = { hangoutsURL := url, entries := none, logLevels := lv } := by
  by_cases hbad : url = "" ∨
      ¬ (HasPrefix url "http://" = true ∨ HasPrefix url "https://" = true)
  · obtain ⟨msg, hmsg⟩ := newHangoutsNotifier_fatal url lv hbad
    rw [hmsg] at hnew
    exact Except.noConfusion hnew
  · have hne : url ≠ "" := fun h => hbad (Or.inl h)
    have hs : HasPrefix url "http://" = true ∨ HasPrefix url "https://" = true :=
      Classical.not_not.1 (fun h => hbad (Or.inr h))
    rw [newHangoutsNotifier_ok url lv hne hs] at hnew
    have hc := Except.ok.inj hnew
    rw [← hc]

theorem ends_nonempty (s start : String) (hs : s = start ++ "\r\n") : s ≠ "" := by
  intro h
  have hlen := congrArg String.length hs
  rw [h, String.length_append] at hlen
  have h2 : ("\r\n" : String).length = 2 := by decide
  have h0 : ("" : String).length = 0 := by decide
  omega

/-- C14: `Levels` returns the accepted levels given at construction, also after
any sequence of `StartNotification`, `Fire` and `SendNotification` calls; no such
call changes the stored levels or the stored URL, from any hook state. -/
theorem Levels_unchanged (url : String) (lv : List Level) (c : Constructed)
    (cs : List Call) (hnew : newHangoutsNotifier url lv = Except.ok c) :
    Levels c.notifier = lv ∧
    Levels (run cs c.notifier).1 = lv ∧
    getURL (run cs c.notifier).1 = url ∧
    (∀ (n : hangoutsTypeNotifier) (call : Call),
      Levels (step n call).1 = Levels n ∧ getURL (step n call).1 = getURL n) ∧
    (∀ (n : hangoutsTypeNotifier) (entry : Entry),
      Levels (StartNotification n).1 = Levels n ∧ getURL (StartNotification n).1 = getURL n ∧
      Levels (Fire n entry).1 = Levels n ∧ getURL (Fire n entry).1 = getURL n ∧
      Levels (SendNotification n).1 = Levels n ∧ getURL (SendNotification n).1 = getURL n) := by
  have hc := constructed_notifier url lv c hnew
  have hrun := run_frame cs c.notifier
  refine ⟨by rw [hc]; rfl, ?_, ?_, ?_, ?_⟩
  · unfold Levels
    rw [hrun.2, hc]
  · unfold getURL
    rw [hrun.1, hc]
  · intro n call
    exact ⟨(step_frame n call).2, (step_frame n call).1⟩
  · intro n entry
    have h1 := step_frame n Call.start
    have h2 := step_frame n (Call.fire entry)
    have h3 := step_frame n Call.send
    exact ⟨h1.2, h1.1, h2.2, h2.1, h3.2, h3.1⟩

/-- Instance of `Levels_unchanged`: a constructed hook taken through a batch. -/
theorem Levels_unchanged_witness :
    Levels (run (cycle [msgEntry "a", msgEntry "b"]) idleHook).1 = [2, 3, 4] :=
  (Levels_unchanged "https://chat.example.com/hook" [2, 3, 4]
    { notifier := idleHook, warnings := [], hooks := [idleHook] }
    (cycle [msgEntry "a", msgEntry "b"]) rfl).2.1

/-- C15 (the code at the failing input): for every sequence of calls on a
freshly constructed hook, the deliveries are built from the slices passed to
`sendEntries`, and those slices in dispatch order followed by the entries left in
the buffer are exactly the fired entries in firing order (nothing twice, nothing
dropped).  But an entry fired before a `StartNotification` can reach the delivery
of the later batch: on a fresh hook `StartNotification; SendNotification` leaves
the empty buffer non-nil, so `Fire x` after it dispatches nothing and buffers
`x`, the next `StartNotification` changes nothing, and the `SendNotification`
that closes the batch of `a` delivers `x` and `a` together. -/
theorem deliveries_account (url : String) (lv : List Level) (c : Constructed)
    (cs : List Call) (hnew : newHangoutsNotifier url lv = Except.ok c) :
    (run cs c.notifier).2 =
      ((sent cs c.notifier).map fun es => { url := url, text := buildMessage es }) ∧
    (sent cs c.notifier).flatten ++ buffer (run cs c.notifier).1 = fired cs ∧
    (∀ x a : Entry,
      run [Call.start, Call.send, Call.fire x] c.notifier =
        ({ hangoutsURL := url, entries := some [x], logLevels := lv }, []) ∧
      run [Call.start, Call.send, Call.fire x, Call.start] c.notifier =
        ({ hangoutsURL := url, entries := some [x], logLevels := lv }, []) ∧
      sent [Call.start, Call.send, Call.fire x, Call.start, Call.fire a, Call.send]
          c.notifier = [[x, a]] ∧
      run [Call.start, Call.send, Call.fire x, Call.start, Call.fire a, Call.send]
          c.notifier =
        ({ hangoutsURL := url, entries := none, logLevels := lv },
         [{ url := url, text := x.Message ++ "\r\n" ++ (a.Message ++ "\r\n") }])) := by
  have hc := constructed_notifier url lv c hnew
  have hfresh : buffer c.notifier = [] := by rw [hc]; rfl
  refine ⟨?_, ?_, ?_⟩
  · rw [run_dispatch cs c.notifier, hc]
  · rw [run_account cs c.notifier, hfresh]
    rfl
  · intro x a
    rw [hc]
    refine ⟨?_, ?_, ?_, ?_⟩
    · simp [run, step, StartNotification, SendNotification, Fire]
    · simp [run, step, StartNotification, SendNotification, Fire]
    · simp [sent, sentBy, step, StartNotification, SendNotification, Fire]
    · simp [run, step, StartNotification, SendNotification, Fire, sendEntries, getURL,
        buildMessage]

/-- Instance of `deliveries_account` on the constructed hook: the entry `x`, fired
after an empty cycle and before the next `StartNotification`, is delivered with
the batch of `a`. -/
theorem deliveries_account_witness :
    (run [Call.start, Call.send, Call.fire (msgEntry "x"), Call.start,
          Call.fire (msgEntry "a"), Call.send] idleHook).2 =
      [{ url := "https://chat.example.com/hook", text := "x\r\na\r\n" }] :=
  congrArg Prod.snd
    ((deliveries_account "https://chat.example.com/hook" [2, 3, 4]
      { notifier := idleHook, warnings := [], hooks := [idleHook] }
      [] rfl).2.2 (msgEntry "x") (msgEntry "a")).2.2.2

/-- C16 (as amended): the hook does not look at an entry's level; when every
entry already buffered and every entry passed to `Fire` has a level in
`Levels()`, as the logging library arranges by consulting `Levels()`, every entry
of every dispatched delivery has a level in `Levels()`. -/
theorem delivered_levels (n : hangoutsTypeNotifier) (cs : List Call)
    (hbuf : ∀ e ∈ buffer n, e.Level ∈ Levels n)
    (hfired : ∀ e ∈ fired cs, e.Level ∈ Levels n) :
    (∀ b ∈ sent cs n, ∀ e ∈ b, e.Level ∈ Levels n) ∧
    (run cs n).2 = ((sent cs n).map fun es =>
      { url := n.hangoutsURL, text := buildMessage es }) := by
  refine ⟨?_, run_dispatch cs n⟩
  intro b hb e he
  have hmem : e ∈ (sent cs n).flatten ++ buffer (run cs n).1 :=
    List.mem_append_left _ (List.mem_flatten.2 ⟨b, hb, he⟩)
  rw [run_account cs n, List.mem_append] at hmem
  rcases hmem with h | h
  · exact hbuf e h
  · exact hfired e h

/-- Instance of `delivered_levels`: a batch of entries at an accepted level. -/
theorem delivered_levels_witness :
    [msgEntry "a", msgEntry "b"] ∈ sent (cycle [msgEntry "a", msgEntry "b"]) idleHook ∧
    (msgEntry "b").Level ∈ Levels idleHook :=
  ⟨by decide,
   (delivered_levels idleHook (cycle [msgEntry "a", msgEntry "b"])
     (by decide) (by decide)).1 [msgEntry "a", msgEntry "b"] (by decide)
     (msgEntry "b") (by decide)⟩

/-- C16 (as stated) fails: `Fire` on an idle hook accepting levels 2, 3 and 4,
given an entry of level 6, dispatches a delivery made of that entry. -/
theorem delivered_levels_counterexample :
    sentBy idleHook (Call.fire { Level := 6, Message := "trace", Data := [] }) =
      [[{ Level := 6, Message := "trace", Data := [] }]] ∧
    (Fire idleHook { Level := 6, Message := "trace", Data := [] }).2.1 =
      [{ url := "https://chat.example.com/hook", text := "trace\r\n" }] ∧
    ¬ (∀ b ∈ sentBy idleHook (Call.fire { Level := 6, Message := "trace", Data := [] }),
        ∀ e ∈ b, e.Level ∈ Levels idleHook) := by
  refine ⟨by decide, by decide, ?_⟩
  intro h
  have h6 := h [{ Level := 6, Message := "trace", Data := [] }] (by decide)
    { Level := 6, Message := "trace", Data := [] } (by decide)
  exact absurd h6 (by decide)

/-- C18: on an idle hook `StartNotification; SendNotification` dispatches nothing
and leaves the batch active and empty; a following `Fire` buffers its entry and
dispatches nothing, nor do any further calls other than `SendNotification`; the
next `SendNotification` dispatches the one delivery that carries the entry, at
the head of its batch. -/
theorem empty_send_keeps_batch (n : hangoutsTypeNotifier) (entry : Entry)
    (others : List Call) (hidle : n.entries = none)
    (hns : ∀ c ∈ others, c.isSend = false) :
    run [Call.start, Call.send] n = ({ n with entries := some [] }, []) ∧
    Fire (run [Call.start, Call.send] n).1 entry =
      ({ n with entries := some [entry] }, [], none) ∧
    run ([Call.start, Call.send, Call.fire entry] ++ others) n =
      ({ n with entries := some (entry :: fired others) }, []) ∧
    sent ([Call.start, Call.send, Call.fire entry] ++ others ++ [Call.send]) n =
      [entry :: fired others] ∧
    run ([Call.start, Call.send, Call.fire entry] ++ others ++ [Call.send]) n =
      ({ n with entries := none },
       [{ url := n.hangoutsURL, text := buildMessage (entry :: fired others) }]) := by
  obtain ⟨url, buf, lv⟩ := n
  simp only at hidle
  subst hidle
  have h1 : run [Call.start, Call.send]
      { hangoutsURL := url, entries := none, logLevels := lv } =
      ({ hangoutsURL := url, entries := some [], logLevels := lv }, []) := by
    simp [run, step, StartNotification, SendNotification]
  have h2 : run [Call.start, Call.send, Call.fire entry]
      { hangoutsURL := url, entries := none, logLevels := lv } =
      ({ hangoutsURL := url, entries := some [entry], logLevels := lv }, []) := by
    simp [run, step, StartNotification, SendNotification, Fire]
  have h3 : run ([Call.start, Call.send, Call.fire entry] ++ others)
      { hangoutsURL := url, entries := none, logLevels := lv } =
      ({ hangoutsURL := url, entries := some (entry :: fired others), logLevels := lv },
       []) := by
    rw [run_append, h2]
    simp only [run_without_send others url lv [entry] hns]
    simp
  have h4 : run ([Call.start, Call.send, Call.fire entry] ++ others ++ [Call.send])
      { hangoutsURL := url, entries := none, logLevels := lv } =
      ({ hangoutsURL := url, entries := none, logLevels := lv },
       [{ url := url, text := buildMessage (entry :: fired others) }]) := by
    rw [run_append, h3]
    simp [run, step, SendNotification, sendEntries, getURL]
  refine ⟨h1, ?_, h3, ?_, h4⟩
  · rw [h1]
    rfl
  · have hd := run_dispatch
      ([Call.start, Call.send, Call.fire entry] ++ others ++ [Call.send])
      { hangoutsURL := url, entries := none, logLevels := lv }
    have hacc := run_account
      ([Call.start, Call.send, Call.fire entry] ++ others ++ [Call.send])
      { hangoutsURL := url, entries := none, logLevels := lv }
    rw [h4] at hd hacc
    have hlen : (sent ([Call.start, Call.send, Call.fire entry] ++ others ++ [Call.send])
        { hangoutsURL := url, entries := none, logLevels := lv }).length = 1 := by
      have := congrArg List.length hd
      simpa using this.symm
    have hf : fired ([Call.start, Call.send, Call.fire entry] ++ others ++ [Call.send]) =
        entry :: fired others := by
      simp [fired_append, fired]
    rw [hf] at hacc
    simp only [buffer, List.append_nil, List.nil_append] at hacc
    match hs : sent ([Call.start, Call.send, Call.fire entry] ++ others ++ [Call.send])
        { hangoutsURL := url, entries := none, logLevels := lv }, hlen, hacc with
    | [b], _, hacc' =>
      simp at hacc'
      rw [hacc']

/-- Instance of `empty_send_keeps_batch`: the entry `a` after an empty cycle,
followed by a repeated `StartNotification` and a second entry. -/
theorem empty_send_keeps_batch_witness :
    run ([Call.start, Call.send, Call.fire (msgEntry "a")] ++
         [Call.start, Call.fire (msgEntry "b")]) idleHook =
      ({ idleHook with
          entries := some (msgEntry "a" :: fired [Call.start, Call.fire (msgEntry "b")]) },
       []) :=
  (empty_send_keeps_batch idleHook (msgEntry "a") [Call.start, Call.fire (msgEntry "b")]
    rfl (by decide)).2.2.1

/-- C19: for every sequence of calls on a freshly constructed hook, every slice
passed to `sendEntries` holds at least one entry, and every dispatched delivery
is built from such a slice, so its text is not empty and ends with `"\r\n"`. -/
theorem deliveries_nonempty (url : String) (lv : List Level) (c : Constructed)
    (cs : List Call) (hnew : newHangoutsNotifier url lv = Except.ok c) :
    (∀ b ∈ sent cs c.notifier, b ≠ []) ∧
    (∀ d ∈ (run cs c.notifier).2,
      (∃ b ∈ sent cs c.notifier, b ≠ [] ∧ d = { url := url, text := buildMessage b }) ∧
      d.text ≠ "" ∧
      ∃ start : String, d.text = start ++ "\r\n") := by
  have hc := constructed_notifier url lv c hnew
  refine ⟨fun b hb => sent_nonempty cs c.notifier b hb, ?_⟩
  intro d hd
  rw [run_dispatch cs c.notifier, List.mem_map] at hd
  obtain ⟨b, hb, hdb⟩ := hd
  have hne := sent_nonempty cs c.notifier b hb
  have hurl : c.notifier.hangoutsURL = url := by rw [hc]
  rw [hurl] at hdb
  obtain ⟨start, hstart⟩ := buildMessage_ends b hne
  have htext : d.text = start ++ "\r\n" := by rw [← hdb]; exact hstart
  exact ⟨⟨b, hb, hne, hdb.symm⟩, ends_nonempty d.text start htext, start, htext⟩

/-- Instance of `deliveries_nonempty`: an empty cycle that stays active, followed
by two entries and the `SendNotification` that delivers both. -/
theorem deliveries_nonempty_witness :
    ({ url := "https://chat.example.com/hook", text := "x\r\na\r\n" } : Delivery) ∈
      (run ([Call.start, Call.send, Call.send, Call.fire (msgEntry "x")] ++
        cycle [msgEntry "a"]) idleHook).2 ∧
    ∃ start : String,
      ({ url := "https://chat.example.com/hook", text := "x\r\na\r\n" } : Delivery).text =
        start ++ "\r\n" :=
  ⟨by decide,
   ((deliveries_nonempty "https://chat.example.com/hook" [2, 3, 4]
      { notifier := idleHook, warnings := [], hooks := [idleHook] }
      ([Call.start, Call.send, Call.send, Call.fire (msgEntry "x")] ++ cycle [msgEntry "a"])
      rfl).2 { url := "https://chat.example.com/hook", text := "x\r\na\r\n" }
      (by decide)).2.2⟩

/-- C20: `buildMessage` of a concatenation is the concatenation of the two
results and `buildMessage` of the empty list is the empty string; so the text of
the delivery of a batch is the texts, joined in order, of the deliveries that
`Fire` dispatches for the same entries on an idle hook. -/
theorem buildMessage_distributes (xs ys : List Entry) :
    buildMessage (xs ++ ys) = buildMessage xs ++ buildMessage ys ∧
    buildMessage [] = "" ∧
    buildMessage xs = String.join (xs.map fun e => buildMessage [e]) ∧
    (∀ (url : String) (lv : List Level) (x : Entry) (rest : List Entry),
      (SendNotification
          { hangoutsURL := url, entries := some (x :: rest), logLevels := lv }).2.map
        Delivery.text =
      [String.join ((x :: rest).map fun e =>
        String.join ((Fire { hangoutsURL := url, entries := none, logLevels := lv } e).2.1.map
          Delivery.text))]) := by
  have hone : ∀ e : Entry, buildMessage [e] = e.Message ++ "\r\n" := by
    intro e
    simp [buildMessage]
  have hjoin : ∀ l : List Entry,
      buildMessage l = String.join (l.map fun e => buildMessage [e]) := by
    intro l
    rw [buildMessage_eq_join]
    congr 1
  refine ⟨buildMessage_append xs ys, rfl, hjoin xs, ?_⟩
  intro url lv x rest
  have hfire : ∀ e : Entry,
      String.join ((Fire { hangoutsURL := url, entries := none, logLevels := lv } e).2.1.map
        Delivery.text) = buildMessage [e] := by
    intro e
    simp [Fire, sendEntries, String.join]
  simp only [hfire]
  rw [← hjoin (x :: rest)]
  simp [SendNotification, sendEntries]

end Watchtower
